import Mathlib

/-!
Verification development for the signal-engine core of the vectorbt repository
(`vectorbt/signals/accessors.py` and the kernels of `vectorbt.signals.nb` it
delegates to).  Matrices are represented column-major: a matrix is a list of
columns, and a column is a list of cells ordered by time (row 0 first), since
every engine operation processes columns independently and rows in order.
-/

namespace VectorBT

/-- EventMatrix: boolean matrix, column-major (list of columns). -/
abbrev BoolMatrix := List (List Bool)

/-- RankMatrix: integer matrix of the same shape as an EventMatrix. -/
abbrev NatMatrix := List (List Nat)

/-- Float matrix (price paths, stop configurations), column-major. -/
abbrev RatMatrix := List (List ℚ)

/-- Modelled from the spec: the per-column scan of `vectorbt.signals.nb.rank_nb`
(the module `vectorbt/signals/nb.py` is not among the sources; §4.1 of the spec
describes it).  State: running counter `r` (starts at 0) and whether a False
cell has been seen.  A `reset_by` True resets the counter before the current
cell is evaluated; a False cell resets the counter unless `allowGaps`; with
`afterFalse`, True cells before the first observed False read 0 and are not
counted. -/
def rankColAux (afterFalse allowGaps : Bool) :
    List Bool → List Bool → Nat → Bool → List Nat
  | [], _, _, _ => []
  | c :: cs, rb, r, falseSeen =>
    let r0 := if rb.headD false then 0 else r
    if c then
      if afterFalse && !falseSeen then
        0 :: rankColAux afterFalse allowGaps cs rb.tail r0 falseSeen
      else
        (r0 + 1) :: rankColAux afterFalse allowGaps cs rb.tail (r0 + 1) falseSeen
    else
      0 :: rankColAux afterFalse allowGaps cs rb.tail (if allowGaps then r0 else 0) true

/-- Modelled from the spec: one column of `rank_nb`, counter initialized to 0,
no False observed yet. -/
def rankCol (col resetBy : List Bool) (afterFalse allowGaps : Bool) : List Nat :=
  rankColAux afterFalse allowGaps col resetBy 0 false

/-- Modelled from the spec: the matrix-level ranking kernel `rank_nb` — every
column is ranked independently; when `resetBy` is absent no reset events occur. -/
def rank_nb (m : BoolMatrix) (resetBy : Option BoolMatrix)
    (afterFalse allowGaps : Bool) : NatMatrix :=
  match resetBy with
  | none => m.map (fun col => rankCol col (List.replicate col.length false) afterFalse allowGaps)
  | some rb => List.zipWith (fun col rcol => rankCol col rcol afterFalse allowGaps) m rb

/-- Embeds `Signals_Accessor.rank` (accessors.py:439-485): broadcasts `reset_by`
when given (already-aligned here) and delegates to the ranking kernel. -/
def rank (m : BoolMatrix) (resetBy : Option BoolMatrix)
    (afterFalse allowGaps : Bool) : NatMatrix :=
  rank_nb m resetBy afterFalse allowGaps

/-- Embeds `Signals_Accessor.first` (accessors.py:527-529): `rank(...) == 1`
elementwise. -/
def first (m : BoolMatrix) (resetBy : Option BoolMatrix)
    (afterFalse allowGaps : Bool) : BoolMatrix :=
  (rank m resetBy afterFalse allowGaps).map (fun col => col.map (fun r => decide (r = 1)))

/-- Embeds `Signals_Accessor.nst` (accessors.py:531-533): `rank(...) == n`
elementwise. -/
def nst (n : Nat) (m : BoolMatrix) (resetBy : Option BoolMatrix)
    (afterFalse allowGaps : Bool) : BoolMatrix :=
  (rank m resetBy afterFalse allowGaps).map (fun col => col.map (fun r => decide (r = n)))

/-- Embeds `Signals_Accessor.from_nst` (accessors.py:535-537): `rank(...) >= n`
elementwise. -/
def from_nst (n : Nat) (m : BoolMatrix) (resetBy : Option BoolMatrix)
    (afterFalse allowGaps : Bool) : BoolMatrix :=
  (rank m resetBy afterFalse allowGaps).map (fun col => col.map (fun r => decide (n ≤ r)))

/-- Reading a mapped list at an index commutes with the mapping when the
default is itself the image of a default. -/
theorem list_map_getD (l : List α) (f : α → β) (a : α) (i : Nat) :
    (l.map f).getD i (f a) = f (l.getD i a) := by
  induction l generalizing i with
  | nil => simp
  | cons hd tl ih => cases i <;> simp [ih]

/-- Reading a cell of an elementwise-mapped matrix commutes with the mapping. -/
theorem matrix_map_getD (A : List (List α)) (f : α → β) (a : α) (i j : Nat) :
    (((A.map (fun c => c.map f)).getD j []).getD i (f a)) = f ((A.getD j []).getD i a) := by
  have houter : (A.map (fun c => c.map f)).getD j [] = (A.getD j []).map f := by
    induction A generalizing j with
    | nil => simp
    | cons hd tl ih =>
      cases j with
      | zero => simp
      | succ k => simp only [List.map_cons, List.getD_cons_succ]; exact ih k
  rw [houter, list_map_getD]

/-- Claim C2: for the single-column input `m = [F,T,T,F,T]`, `rank m` with the
default flags is `[0,1,2,0,1]` (a False cell resets the counter) and
`rank m` with `allow_gaps = true` is `[0,1,2,0,3]` (False cells read 0 but do
not reset the counter). -/
theorem rank_gap_law :
    rank [[false, true, true, false, true]] none false false = [[0, 1, 2, 0, 1]] ∧
    rank [[false, true, true, false, true]] none false true = [[0, 1, 2, 0, 3]] := by
  constructor <;> rfl

/-- Claim C5: for every boolean matrix, every positive `n` and every
combination of the ranking flags, `first` is the elementwise predicate
`rank == 1`, `nst n` is `rank == n`, and `from_nst n` is `rank >= n` — each is
computed purely from `rank` (accessors.py:527-537). -/
theorem first_nst_from_nst_via_rank (m : BoolMatrix) (rb : Option BoolMatrix)
    (af ag : Bool) (n : Nat) (hn : 0 < n) (i j : Nat) :
    ((first m rb af ag).getD j []).getD i false
      = decide (((rank m rb af ag).getD j []).getD i 0 = 1) ∧
    ((nst n m rb af ag).getD j []).getD i false
      = decide (((rank m rb af ag).getD j []).getD i 0 = n) ∧
    ((from_nst n m rb af ag).getD j []).getD i false
      = decide (n ≤ ((rank m rb af ag).getD j []).getD i 0) := by
  have hne : n ≠ 0 := Nat.pos_iff_ne_zero.mp hn
  refine ⟨?_, ?_, ?_⟩
  · have h1 : (false : Bool) = decide ((0 : Nat) = 1) := by decide
    rw [first, h1, matrix_map_getD (rank m rb af ag) (fun r => decide (r = 1)) 0 i j]
  · have h2 : (false : Bool) = decide ((0 : Nat) = n) := by
      simp [eq_comm, hne]
    rw [nst, h2, matrix_map_getD (rank m rb af ag) (fun r => decide (r = n)) 0 i j]
  · have h3 : (false : Bool) = decide (n ≤ 0) := by
      simp [Nat.le_zero, hne]
    rw [from_nst, h3, matrix_map_getD (rank m rb af ag) (fun r => decide (n ≤ r)) 0 i j]

/-- Witness for C5 at a concrete matrix, `n = 2`, cell (1, 0). -/
theorem first_nst_from_nst_via_rank_witness :
    0 < 2 ∧
    (((first [[true, true, false]] none false false).getD 0 []).getD 1 false
        = decide (((rank [[true, true, false]] none false false).getD 0 []).getD 1 0 = 1) ∧
      ((nst 2 [[true, true, false]] none false false).getD 0 []).getD 1 false
        = decide (((rank [[true, true, false]] none false false).getD 0 []).getD 1 0 = 2) ∧
      ((from_nst 2 [[true, true, false]] none false false).getD 0 []).getD 1 false
        = decide (2 ≤ ((rank [[true, true, false]] none false false).getD 0 []).getD 1 0)) :=
  ⟨by decide, first_nst_from_nst_via_rank [[true, true, false]] none false false 2 (by decide) 1 0⟩

/-- Modelled from the spec: the threshold formula of §4.4 — relative mode
multiplies the reference price by `1 - stop` (loss) or `1 + stop` (profit);
absolute mode subtracts or adds the stop distance. -/
def stopThreshold (isLoss relative : Bool) (ref s : ℚ) : ℚ :=
  if relative then
    if isLoss then ref * (1 - s) else ref * (1 + s)
  else
    if isLoss then ref - s else ref + s

/-- Modelled from the spec: a cell is a candidate exit when the price is at or
below the threshold (loss side) or at or above it (profit side). -/
def stopCandidate (isLoss : Bool) (p thr : ℚ) : Bool :=
  if isLoss then decide (p ≤ thr) else decide (thr ≤ p)

/-- Modelled from the spec: the shared per-column scan of
`vectorbt.signals.nb.generate_stop_loss_nb` / `generate_take_profit_nb`
(`vectorbt/signals/nb.py` is not among the sources; §4.4 of the spec).  Each
row carries (entry?, price, stop).  State: whether an entry has occurred,
`anchor` (price at the most recent entry), the running maximum since the
anchor, and whether a candidate exit has already occurred in the current span.
The scan emits, per row, the marked exit flag and the threshold in force
(0 before any entry). -/
def stopScanAux (isLoss trailing relative firstOnly : Bool) :
    List (Bool × ℚ × ℚ) → Bool → ℚ → ℚ → Bool → List (Bool × ℚ)
  | [], _, _, _, _ => []
  | (e, p, s) :: rest, hadEntry, anchor, runMax, exited =>
    if e then
      let thr := stopThreshold isLoss relative p s
      let cand := stopCandidate isLoss p thr
      (cand, thr) :: stopScanAux isLoss trailing relative firstOnly rest true p p cand
    else if hadEntry then
      let runMax1 := max runMax p
      let ref := if trailing then runMax1 else anchor
      let thr := stopThreshold isLoss relative ref s
      let cand := stopCandidate isLoss p thr
      let mark := cand && !(firstOnly && exited)
      (mark, thr) :: stopScanAux isLoss trailing relative firstOnly rest true anchor runMax1 (exited || cand)
    else
      (false, 0) :: stopScanAux isLoss trailing relative firstOnly rest false anchor runMax exited

/-- Modelled from the spec: one column of `generate_stop_loss_nb` — exit flags
of the loss-side scan. -/
def generate_stop_loss_col (entries : List Bool) (price stop : List ℚ)
    (trailing relative firstOnly : Bool) : List Bool :=
  (stopScanAux true trailing relative firstOnly
    (entries.zip (price.zip stop)) false 0 0 false).map Prod.fst

/-- Modelled from the spec: per-row stop-loss thresholds in force for one
column (0 before the first entry). -/
def stop_loss_thresholds_col (entries : List Bool) (price stop : List ℚ)
    (trailing relative firstOnly : Bool) : List ℚ :=
  (stopScanAux true trailing relative firstOnly
    (entries.zip (price.zip stop)) false 0 0 false).map Prod.snd

/-- Modelled from the spec: one column of `generate_take_profit_nb` — the
profit side of the shared scan; the take-profit kernel has no trailing option
(accessors.py:311-342 passes none), so the scan runs with trailing disabled. -/
def generate_take_profit_col (entries : List Bool) (price stop : List ℚ)
    (relative firstOnly : Bool) : List Bool :=
  (stopScanAux false false relative firstOnly
    (entries.zip (price.zip stop)) false 0 0 false).map Prod.fst

/-- Modelled from the spec: per-row take-profit thresholds in force for one
column (0 before the first entry). -/
def take_profit_thresholds_col (entries : List Bool) (price stop : List ℚ)
    (relative firstOnly : Bool) : List ℚ :=
  (stopScanAux false false relative firstOnly
    (entries.zip (price.zip stop)) false 0 0 false).map Prod.snd

/-- Three-list pointwise zip, truncating at the shortest operand. -/
def zipWith3 (f : α → β → γ → δ) : List α → List β → List γ → List δ
  | a :: as, b :: bs, c :: cs => f a b c :: zipWith3 f as bs cs
  | _, _, _ => []

/-- Modelled from the spec: the matrix-level kernel `generate_stop_loss_nb` —
`stops` is the broadcast ConfigStack (K configurations, each a matrix of
per-column per-row stop distances); each configuration contributes one block
of N output columns, blocks in the order of `stops`. -/
def generate_stop_loss_nb (entries : BoolMatrix) (ts : RatMatrix)
    (stops : List RatMatrix) (trailing relative firstOnly : Bool) : BoolMatrix :=
  (stops.map (fun cfg =>
    zipWith3 (fun e p s => generate_stop_loss_col e p s trailing relative firstOnly)
      entries ts cfg)).flatten

/-- Modelled from the spec: the matrix-level kernel `generate_take_profit_nb`;
no trailing parameter exists on this side. -/
def generate_take_profit_nb (entries : BoolMatrix) (ts : RatMatrix)
    (stops : List RatMatrix) (relative firstOnly : Bool) : BoolMatrix :=
  (stops.map (fun cfg =>
    zipWith3 (fun e p s => generate_take_profit_col e p s relative firstOnly)
      entries ts cfg)).flatten

/-- Claim C1: for the single-column input entries `[T,F,F,F,F]`, price
`[10,9,8,11,12]`, stop 0.1, relative, non-trailing, the loss-side threshold is
the constant 9 and the exits are `[F,T,T,F,F]` with `first = false` and
`[F,T,F,F,F]` with `first = true`. -/
theorem stop_loss_scenario :
    generate_stop_loss_nb [[true, false, false, false, false]] [[10, 9, 8, 11, 12]]
        [[List.replicate 5 (1/10 : ℚ)]] false true false
      = [[false, true, true, false, false]] ∧
    generate_stop_loss_nb [[true, false, false, false, false]] [[10, 9, 8, 11, 12]]
        [[List.replicate 5 (1/10 : ℚ)]] false true true
      = [[false, true, false, false, false]] ∧
    stop_loss_thresholds_col [true, false, false, false, false] [10, 9, 8, 11, 12]
        (List.replicate 5 (1/10 : ℚ)) false true true
      = List.replicate 5 (9 : ℚ) := by
  have hthr : stopThreshold true true 10 ((10 : ℚ)⁻¹) = 9 := by norm_num [stopThreshold]
  have hc10 : stopCandidate true 10 9 = false := by norm_num [stopCandidate]
  have hc9 : stopCandidate true 9 9 = true := by norm_num [stopCandidate]
  have hc8 : stopCandidate true 8 9 = true := by norm_num [stopCandidate]
  have hc11 : stopCandidate true 11 9 = false := by norm_num [stopCandidate]
  have hc12 : stopCandidate true 12 9 = false := by norm_num [stopCandidate]
  refine ⟨?_, ?_, ?_⟩ <;>
    simp [generate_stop_loss_nb, generate_stop_loss_col, stop_loss_thresholds_col,
      zipWith3, stopScanAux, List.zip, hthr, hc10, hc9, hc8, hc11, hc12]

/-- Declarative reference-price recurrence, following the spec words for
take-profit (§4.4): the threshold at each row comes from the price recorded at
the most recent entry at or before that row (`none` while no entry has
occurred, threshold 0 then), as `anchor * (1 + stop)` in relative mode and
`anchor + stop` in absolute mode — no running extreme appears. -/
def fixedAnchorThresholds (relative : Bool) : List (Bool × ℚ × ℚ) → Option ℚ → List ℚ
  | [], _ => []
  | (e, p, s) :: rest, cur =>
    let cur1 := if e then some p else cur
    (match cur1 with
     | some a => if relative then a * (1 + s) else a + s
     | none => 0) :: fixedAnchorThresholds relative rest cur1

/-- After the first entry, the profit-side scan's thresholds depend only on
the anchor — not on the running maximum or the exit flag. -/
theorem stopScanAux_profit_snd (relative firstOnly : Bool)
    (rows : List (Bool × ℚ × ℚ)) :
    ∀ (anchor runMax : ℚ) (exited : Bool),
    (stopScanAux false false relative firstOnly rows true anchor runMax exited).map Prod.snd
      = fixedAnchorThresholds relative rows (some anchor) := by
  induction rows with
  | nil => intro anchor runMax exited; rfl
  | cons hd tl ih =>
    intro anchor runMax exited
    obtain ⟨e, p, s⟩ := hd
    cases e <;> simp [stopScanAux, fixedAnchorThresholds, stopThreshold, ih]

/-- Before the first entry, the profit-side scan emits threshold 0 and hands
over to the anchored phase at the first entry. -/
theorem stopScanAux_profit_snd_pre (relative firstOnly : Bool)
    (rows : List (Bool × ℚ × ℚ)) :
    ∀ (anchor runMax : ℚ) (exited : Bool),
    (stopScanAux false false relative firstOnly rows false anchor runMax exited).map Prod.snd
      = fixedAnchorThresholds relative rows none := by
  induction rows with
  | nil => intro anchor runMax exited; rfl
  | cons hd tl ih =>
    intro anchor runMax exited
    obtain ⟨e, p, s⟩ := hd
    cases e
    · simp [stopScanAux, fixedAnchorThresholds, ih]
    · simp [stopScanAux, fixedAnchorThresholds, stopThreshold, stopScanAux_profit_snd]

/-- Claim C8: `generate_take_profit` never uses a trailing reference — for
every entries column, price column and stop series, the thresholds its scan
enforces equal the declarative fixed-anchor recurrence: within each entry span
the reference price is the price recorded at the most recent entry, and the
threshold is `anchor * (1 + stop)` in relative mode and `anchor + stop` in
absolute mode, for either value of the `first` flag.  (The operation also
exposes no trailing parameter: `generate_take_profit_col` takes none, matching
accessors.py:311.) -/
theorem take_profit_fixed_reference (entries : List Bool) (price stop : List ℚ)
    (relative firstOnly : Bool) :
    take_profit_thresholds_col entries price stop relative firstOnly
      = fixedAnchorThresholds relative (entries.zip (price.zip stop)) none := by
  simpa [take_profit_thresholds_col] using
    stopScanAux_profit_snd_pre relative firstOnly (entries.zip (price.zip stop)) 0 0 false

/-- Length of a three-way zip whose operands have a common length. -/
theorem zipWith3_length_eq (f : α → β → γ → δ) (as : List α) (bs : List β) (cs : List γ)
    (hb : bs.length = as.length) (hc : cs.length = as.length) :
    (zipWith3 f as bs cs).length = as.length := by
  induction as generalizing bs cs with
  | nil =>
    cases bs with
    | nil => cases cs <;> simp [zipWith3]
    | cons b bs => simp at hb
  | cons a as ih =>
    cases bs with
    | nil => simp at hb
    | cons b bs =>
      cases cs with
      | nil => simp at hc
      | cons c cs =>
        simp only [zipWith3, List.length_cons]
        rw [ih bs cs (by simpa using hb) (by simpa using hc)]

/-- Reading a cell of a three-way zip whose operands have a common length. -/
theorem zipWith3_getElem? (f : α → β → γ → δ) (as : List α) (bs : List β) (cs : List γ)
    (da : α) (db : β) (dc : γ) (j : Nat) (hj : j < as.length)
    (hb : bs.length = as.length) (hc : cs.length = as.length) :
    (zipWith3 f as bs cs)[j]?
      = some (f (as.getD j da) (bs.getD j db) (cs.getD j dc)) := by
  induction as generalizing bs cs j with
  | nil => simp at hj
  | cons a as ih =>
    cases bs with
    | nil => simp at hb
    | cons b bs =>
      cases cs with
      | nil => simp at hc
      | cons c cs =>
        cases j with
        | zero => simp [zipWith3]
        | succ k =>
          simp only [zipWith3, List.getElem?_cons_succ, List.getD_cons_succ]
          exact ih bs cs k (by simpa using hj) (by simpa using hb) (by simpa using hc)

/-- Flattening blocks of a common length `N` yields `K * N` cells. -/
theorem flatten_blocks_length (L : List (List α)) (N : Nat)
    (h : ∀ l ∈ L, l.length = N) :
    L.flatten.length = L.length * N := by
  induction L with
  | nil => simp
  | cons hd tl ih =>
    have hhd : hd.length = N := h hd (by simp)
    have htl := ih (fun l hl => h l (by simp [hl]))
    simp only [List.flatten_cons, List.length_append, List.length_cons, hhd, htl]
    ring

/-- Cell `k * N + j` of flattened constant-length blocks is cell `j` of
block `k`. -/
theorem flatten_blocks_getElem? (L : List (List α)) (N : Nat)
    (h : ∀ l ∈ L, l.length = N) (k j : Nat) (hk : k < L.length) (hj : j < N) :
    L.flatten[k * N + j]? = (L.getD k [])[j]? := by
  induction L generalizing k with
  | nil => simp at hk
  | cons hd tl ih =>
    have hhd : hd.length = N := h hd (by simp)
    cases k with
    | zero =>
      simp only [List.flatten_cons, Nat.zero_mul, Nat.zero_add, List.getD_cons_zero]
      exact List.getElem?_append_left (by omega)
    | succ k =>
      rw [List.flatten_cons,
        show (k + 1) * N + j = hd.length + (k * N + j) by rw [hhd]; ring,
        List.getElem?_append_right (by omega), Nat.add_sub_cancel_left,
        List.getD_cons_succ]
      exact ih (fun l hl => h l (by simp [hl])) k (by simpa using hk)

/-- Reading a mapped list below its length commutes with the mapping for any
defaults. -/
theorem getD_map_of_lt (L : List α) (g : α → β) (k : Nat) (hk : k < L.length)
    (d : β) (d2 : α) :
    (L.map g).getD k d = g (L.getD k d2) := by
  induction L generalizing k with
  | nil => simp at hk
  | cons hd tl ih =>
    cases k with
    | zero => simp
    | succ k =>
      simp only [List.map_cons, List.getD_cons_succ]
      exact ih k (by simpa using hk)

/-- Claim C7: for every entries matrix with N columns and every broadcast stops
stack with K configurations, `generate_stop_loss_nb` and
`generate_take_profit_nb` return exactly K × N columns; output column
`k * N + j` is input column `j` processed under configuration `k`, so the N
input columns are replicated once per configuration and the K configuration
blocks appear in the order of `stops`. -/
theorem stop_generators_column_layout (entries : BoolMatrix) (ts : RatMatrix)
    (stops : List RatMatrix) (tr rel fi : Bool)
    (hts : ts.length = entries.length)
    (hcfg : ∀ cfg ∈ stops, cfg.length = entries.length)
    (k j : Nat) (hk : k < stops.length) (hj : j < entries.length) :
    (generate_stop_loss_nb entries ts stops tr rel fi).length
        = stops.length * entries.length ∧
    (generate_take_profit_nb entries ts stops rel fi).length
        = stops.length * entries.length ∧
    (generate_stop_loss_nb entries ts stops tr rel fi)[k * entries.length + j]?
      = some (generate_stop_loss_col (entries.getD j []) (ts.getD j [])
          ((stops.getD k []).getD j []) tr rel fi) ∧
    (generate_take_profit_nb entries ts stops rel fi)[k * entries.length + j]?
      = some (generate_take_profit_col (entries.getD j []) (ts.getD j [])
          ((stops.getD k []).getD j []) rel fi) := by
  have hmem : stops.getD k [] ∈ stops := by
    have hgd : stops.getD k [] = stops[k] := by
      rw [List.getD_eq_getElem?_getD, List.getElem?_eq_getElem hk, Option.getD_some]
    rw [hgd]
    exact List.getElem_mem hk
  have hcfgk : (stops.getD k []).length = entries.length := hcfg _ hmem
  have hblockssl : ∀ l ∈ stops.map (fun cfg =>
      zipWith3 (fun e p s => generate_stop_loss_col e p s tr rel fi) entries ts cfg),
      l.length = entries.length := by
    rintro l hl
    rw [List.mem_map] at hl
    obtain ⟨cfg, hcfgm, rfl⟩ := hl
    exact zipWith3_length_eq _ entries ts cfg hts (hcfg cfg hcfgm)
  have hblockstp : ∀ l ∈ stops.map (fun cfg =>
      zipWith3 (fun e p s => generate_take_profit_col e p s rel fi) entries ts cfg),
      l.length = entries.length := by
    rintro l hl
    rw [List.mem_map] at hl
    obtain ⟨cfg, hcfgm, rfl⟩ := hl
    exact zipWith3_length_eq _ entries ts cfg hts (hcfg cfg hcfgm)
  refine ⟨?_, ?_, ?_, ?_⟩
  · simp only [generate_stop_loss_nb]
    rw [flatten_blocks_length _ entries.length hblockssl, List.length_map]
  · simp only [generate_take_profit_nb]
    rw [flatten_blocks_length _ entries.length hblockstp, List.length_map]
  · simp only [generate_stop_loss_nb]
    rw [flatten_blocks_getElem? _ entries.length hblockssl k j (by simpa using hk) hj,
      getD_map_of_lt stops _ k hk _ [],
      zipWith3_getElem? _ entries ts (stops.getD k []) [] [] [] j hj hts hcfgk]
  · simp only [generate_take_profit_nb]
    rw [flatten_blocks_getElem? _ entries.length hblockstp k j (by simpa using hk) hj,
      getD_map_of_lt stops _ k hk _ [],
      zipWith3_getElem? _ entries ts (stops.getD k []) [] [] [] j hj hts hcfgk]

/-- Witness for C7 at a one-column, one-configuration input. -/
theorem stop_generators_column_layout_witness :
    (([[(1 : ℚ)]] : RatMatrix).length = ([[true]] : BoolMatrix).length ∧
      (0 : Nat) < 1) ∧
    ((generate_stop_loss_nb [[true]] [[(1 : ℚ)]] [[[(0 : ℚ)]]] false true true).length
        = 1 * 1 ∧
      (generate_take_profit_nb [[true]] [[(1 : ℚ)]] [[[(0 : ℚ)]]] true true).length
        = 1 * 1 ∧
      (generate_stop_loss_nb [[true]] [[(1 : ℚ)]] [[[(0 : ℚ)]]] false true true)[0 * 1 + 0]?
        = some (generate_stop_loss_col [true] [(1 : ℚ)] [(0 : ℚ)] false true true) ∧
      (generate_take_profit_nb [[true]] [[(1 : ℚ)]] [[[(0 : ℚ)]]] true true)[0 * 1 + 0]?
        = some (generate_take_profit_col [true] [(1 : ℚ)] [(0 : ℚ)] true true)) :=
  ⟨⟨rfl, by decide⟩, by
    have h := stop_generators_column_layout [[true]] [[(1 : ℚ)]] [[[(0 : ℚ)]]]
      false true true rfl
      (by intro cfg hc; rw [List.mem_singleton] at hc; subst hc; rfl)
      0 0 (by decide) (by decide)
    simpa using h⟩

/-- Numpy-style dtype of a wrapped pandas object. -/
inductive Dtype
  | bool
  | int64
  | float64
  | object
deriving DecidableEq

/-- One stored cell of a pandas object: boolean, integer or float. -/
inductive Cell
  | b (v : Bool)
  | i (v : Int)
  | f (v : ℚ)

/-- A plain pandas Series/DataFrame as the engine sees it: its element dtype
and its cells, column-major. -/
structure PandasObj where
  dtype : Dtype
  values : List (List Cell)

/-- Modelled from the spec: `checks.assert_dtype` (module `vectorbt.utils.checks`
is not among the sources; §3 of the spec: signal dtype is strictly boolean,
non-boolean inputs are rejected, never coerced) — fails unless the object's
dtype is the required one. -/
def assert_dtype (obj : PandasObj) (d : Dtype) : Except String Unit :=
  if obj.dtype = d then Except.ok () else Except.error "dtype mismatch"

/-- Embeds `Signals_Accessor.__init__` (accessors.py:61-67): asserts the
wrapped object's dtype is boolean before constructing the accessor; a truthy
non-boolean object never becomes a signal matrix. -/
def Signals_Accessor_init (obj : PandasObj) : Except String PandasObj :=
  match assert_dtype obj Dtype.bool with
  | Except.error e => Except.error e
  | Except.ok _ => Except.ok obj

/-- Boolean view of a pandas object, meaningful only after its dtype has been
checked to be boolean (non-boolean cells never reach this point). -/
def toBoolMatrix (obj : PandasObj) : BoolMatrix :=
  obj.values.map (fun col => col.map (fun cell =>
    match cell with
    | Cell.b v => v
    | _ => false))

/-- A map callable: column index, span start, span end to a scalar. -/
abbrev MapFn := Nat → Nat → Nat → ℚ

/-- A reduce callable: column index and the per-span values to one scalar. -/
abbrev ReduceFn := Nat → List ℚ → ℚ

/-- Row indices of the True cells of a column, ascending. -/
def trueIndices (col : List Bool) : List Nat :=
  (List.range col.length).filter (fun i => col.getD i false)

/-- Modelled from the spec: the kernel `map_reduce_between_nb` (§4.2) — per
column, map over consecutive pairs of True row indices and reduce the
resulting sequence (empty for columns with fewer than two True cells). -/
def map_reduce_between_nb (m : BoolMatrix) (mf : MapFn) (rf : ReduceFn) : List ℚ :=
  m.enum.map (fun pr =>
    let idxs := trueIndices pr.2
    rf pr.1 ((idxs.zip idxs.tail).map (fun q => mf pr.1 q.1 q.2)))

/-- Modelled from the spec: the kernel `map_reduce_between_two_nb` (§4.2) —
per column, pair each True index of `a` with the nearest strictly-later True
index of `b`, skipping unmatched ones. -/
def map_reduce_between_two_nb (a b : BoolMatrix) (mf : MapFn) (rf : ReduceFn) : List ℚ :=
  a.enum.map (fun pr =>
    let bidx := trueIndices (b.getD pr.1 [])
    let pairs := (trueIndices pr.2).filterMap
      (fun fi => (bidx.find? (fun ti => decide (fi < ti))).map (fun ti => (fi, ti)))
    rf pr.1 (pairs.map (fun q => mf pr.1 q.1 q.2)))

/-- Modelled from the spec: partitions of a column as half-open ranges
(first index, one past the last index of each maximal True run). -/
def partitionRangesAux : List Bool → Nat → Option Nat → List (Nat × Nat)
  | [], _, none => []
  | [], i, some st => [(st, i)]
  | c :: cs, i, none =>
    if c then partitionRangesAux cs (i + 1) (some i)
    else partitionRangesAux cs (i + 1) none
  | c :: cs, i, some st =>
    if c then partitionRangesAux cs (i + 1) (some st)
    else (st, i) :: partitionRangesAux cs (i + 1) none

/-- Modelled from the spec: partition ranges of a column from row 0. -/
def partitionRanges (col : List Bool) : List (Nat × Nat) :=
  partitionRangesAux col 0 none

/-- Modelled from the spec: the kernel `map_reduce_partitions_nb` (§4.2) — per
column, map over partitions and reduce. -/
def map_reduce_partitions_nb (m : BoolMatrix) (mf : MapFn) (rf : ReduceFn) : List ℚ :=
  m.enum.map (fun pr =>
    rf pr.1 ((partitionRanges pr.2).map (fun q => mf pr.1 q.1 q.2)))

/-- Embeds `Signals_Accessor.map_reduce_between` (accessors.py:352-391): the
callables are asserted present before any kernel runs; when `other` is given
its dtype is asserted boolean before the two-matrix kernel runs. -/
def map_reduce_between (self : BoolMatrix) (other : Option PandasObj)
    (map_func_nb : Option MapFn) (reduce_func_nb : Option ReduceFn) :
    Except String (List ℚ) :=
  match map_func_nb with
  | none => Except.error "map_func_nb must be provided"
  | some mf =>
    match reduce_func_nb with
    | none => Except.error "reduce_func_nb must be provided"
    | some rf =>
      match other with
      | none => Except.ok (map_reduce_between_nb self mf rf)
      | some o =>
        match assert_dtype o Dtype.bool with
        | Except.error e => Except.error e
        | Except.ok _ => Except.ok (map_reduce_between_two_nb self (toBoolMatrix o) mf rf)

/-- Embeds `Signals_Accessor.map_reduce_partitions` (accessors.py:394-417):
the callables are asserted present before the kernel runs. -/
def map_reduce_partitions (self : BoolMatrix)
    (map_func_nb : Option MapFn) (reduce_func_nb : Option ReduceFn) :
    Except String (List ℚ) :=
  match map_func_nb with
  | none => Except.error "map_func_nb must be provided"
  | some mf =>
    match reduce_func_nb with
    | none => Except.error "reduce_func_nb must be provided"
    | some rf => Except.ok (map_reduce_partitions_nb self mf rf)

/-- Claim C3: for every input matrix (and optional second operand), calling
`map_reduce_between` or `map_reduce_partitions` with a missing map or reduce
callable fails up front with an error — no per-column scan runs and no partial
output is produced (the error result carries no values). -/
theorem map_reduce_missing_callable_fails (self : BoolMatrix)
    (other : Option PandasObj) (mf : Option MapFn) (rf : Option ReduceFn)
    (h : mf = none ∨ rf = none) :
    (∃ e, map_reduce_between self other mf rf = Except.error e) ∧
    (∃ e, map_reduce_partitions self mf rf = Except.error e) := by
  rcases h with h | h
  · subst h
    exact ⟨⟨_, rfl⟩, ⟨_, rfl⟩⟩
  · subst h
    cases mf with
    | none => exact ⟨⟨_, rfl⟩, ⟨_, rfl⟩⟩
    | some mf0 => exact ⟨⟨_, rfl⟩, ⟨_, rfl⟩⟩

/-- Witness for C3 with a missing reduce callable on a concrete matrix. -/
theorem map_reduce_missing_callable_fails_witness :
    ((some (fun _ fi ti => (ti : ℚ) - fi) : Option MapFn) = none ∨
      (none : Option ReduceFn) = none) ∧
    ((∃ e, map_reduce_between [[true, false]] none
        (some (fun _ fi ti => (ti : ℚ) - fi)) none = Except.error e) ∧
      (∃ e, map_reduce_partitions [[true, false]]
        (some (fun _ fi ti => (ti : ℚ) - fi)) none = Except.error e)) :=
  ⟨Or.inr rfl,
    map_reduce_missing_callable_fails [[true, false]] none
      (some (fun _ fi ti => (ti : ℚ) - fi)) none (Or.inr rfl)⟩

/-- Claim C4: an input object whose dtype is not strictly boolean is rejected
when the signals accessor is constructed — so no operation can run on it and
truthy non-boolean values are never coerced to signals — and the second
operand of the two-matrix `map_reduce_between` is likewise rejected when its
dtype is not boolean, even with both callables supplied. -/
theorem non_bool_dtype_rejected (obj o2 : PandasObj) (m : BoolMatrix)
    (mf : MapFn) (rf : ReduceFn)
    (h1 : obj.dtype ≠ Dtype.bool) (h2 : o2.dtype ≠ Dtype.bool) :
    (∃ e, Signals_Accessor_init obj = Except.error e) ∧
    (∃ e, map_reduce_between m (some o2) (some mf) (some rf) = Except.error e) := by
  constructor
  · refine ⟨"dtype mismatch", ?_⟩
    simp [Signals_Accessor_init, assert_dtype, h1]
  · refine ⟨"dtype mismatch", ?_⟩
    simp [map_reduce_between, assert_dtype, h2]

/-- Witness for C4 with an int64 object holding a truthy value. -/
theorem non_bool_dtype_rejected_witness :
    ((PandasObj.mk Dtype.int64 [[Cell.i 1]]).dtype ≠ Dtype.bool) ∧
    ((∃ e, Signals_Accessor_init (PandasObj.mk Dtype.int64 [[Cell.i 1]])
        = Except.error e) ∧
      (∃ e, map_reduce_between [[true]] (some (PandasObj.mk Dtype.int64 [[Cell.i 1]]))
          (some (fun _ fi ti => (ti : ℚ) - fi)) (some (fun _ _ => 0))
        = Except.error e)) :=
  ⟨by decide,
    non_bool_dtype_rejected (PandasObj.mk Dtype.int64 [[Cell.i 1]])
      (PandasObj.mk Dtype.int64 [[Cell.i 1]]) [[true]]
      (fun _ fi ti => (ti : ℚ) - fi) (fun _ _ => 0)
      (by decide) (by decide)⟩

/-- Modelled from the spec: `Base_Accessor.combine_with_multiple` (module
`vectorbt.utils.accessors` is not among the sources; §4.5 of the spec) in its
default non-concatenating mode — apply the elementwise operator pairwise
left-to-right across the other operands (the concatenation mode, which stacks
one result per operand instead, is a separate code path not modelled here). -/
def combine_with_multiple (m : BoolMatrix) (others : List BoolMatrix)
    (f : Bool → Bool → Bool) : BoolMatrix :=
  others.foldl (fun acc o => List.zipWith (List.zipWith f) acc o) m

/-- Embeds `Signals_Accessor.AND` (accessors.py:539-545): combine with each
other operand using logical and. -/
def AND (m : BoolMatrix) (others : List BoolMatrix) : BoolMatrix :=
  combine_with_multiple m others Bool.and

/-- Columnwise conjunction is associative (zips truncate identically). -/
theorem zipWith_and_assoc (a b c : List Bool) :
    List.zipWith Bool.and (List.zipWith Bool.and a b) c
      = List.zipWith Bool.and a (List.zipWith Bool.and b c) := by
  induction a generalizing b c with
  | nil => simp
  | cons x xs ih =>
    cases b with
    | nil => simp
    | cons y ys =>
      cases c with
      | nil => simp
      | cons z zs => simp [Bool.and_assoc, ih]

/-- Matrixwise conjunction is associative. -/
theorem matrix_and_assoc (A B C : BoolMatrix) :
    List.zipWith (List.zipWith Bool.and) (List.zipWith (List.zipWith Bool.and) A B) C
      = List.zipWith (List.zipWith Bool.and) A (List.zipWith (List.zipWith Bool.and) B C) := by
  induction A generalizing B C with
  | nil => simp
  | cons x xs ih =>
    cases B with
    | nil => simp
    | cons y ys =>
      cases C with
      | nil => simp
      | cons z zs => simp [zipWith_and_assoc, ih]

/-- Claim C6: in the default non-concatenating mode `AND a [b, c]` is the
elementwise conjunction `a & b & c`, and the pairwise left-to-right
application is insensitive to grouping: folding `b` then `c`, or combining
`b & c` first, gives the same matrix. -/
theorem AND_grouping_insensitive (a b c : BoolMatrix) :
    AND a [b, c] = List.zipWith (List.zipWith Bool.and) a
        (List.zipWith (List.zipWith Bool.and) b c) ∧
    AND a [b, c] = AND (AND a [b]) [c] ∧
    AND a [b, c] = AND a [AND b [c]] := by
  refine ⟨?_, rfl, ?_⟩
  · simp only [AND, combine_with_multiple, List.foldl_cons, List.foldl_nil]
    exact matrix_and_assoc a b c
  · simp only [AND, combine_with_multiple, List.foldl_cons, List.foldl_nil]
    exact matrix_and_assoc a b c

/-- A Python shape argument: either a bare integer or a tuple of dimensions. -/
inductive PyShape
  | int (n : Nat)
  | tuple (dims : List Nat)

/-- Embeds the shape normalization shared by `Signals_Accessor.generate`
(accessors.py:127-131), `generate_random` (158-161) and
`generate_iteratively` (211-214): a non-tuple shape becomes `(shape, 1)` and a
one-element tuple becomes `(shape[0], 1)`; other tuples pass through. -/
def normalize_shape : PyShape → List Nat
  | PyShape.int n => [n, 1]
  | PyShape.tuple dims => if dims.length = 1 then [dims.getD 0 0, 1] else dims

/-- A choice callable: column index, range start, range end to row indices. -/
abbrev ChoiceFn := Nat → Nat → Nat → List Nat

/-- Modelled from the spec: the kernel `generate_nb` (§4.3) — for each column
independently, call the choice callable on `(col, 0, T)` and mark the returned
row indices True. -/
def generate_nb (shape : List Nat) (choice : ChoiceFn) : BoolMatrix :=
  let T := shape.getD 0 0
  let N := shape.getD 1 0
  (List.range N).map (fun col =>
    let chosen := choice col 0 T
    (List.range T).map (fun i => chosen.contains i))

/-- Embeds `Signals_Accessor.generate` (accessors.py:102-136): normalize the
shape, then run the generation kernel. -/
def generate (shape : PyShape) (choice : ChoiceFn) : BoolMatrix :=
  generate_nb (normalize_shape shape) choice

/-- Modelled from the spec: a concrete deterministic PRNG step (the spec
leaves the PRNG algorithm an explicit compatibility choice, §9); a linear
congruential step. -/
def lcgStep (s : Nat) : Nat :=
  (s * 1664525 + 1013904223) % 4294967296

/-- Modelled from the spec: place up to `n` row indices in `[0, T)` spaced at
least `space + 1` apart starting from `start`, as many as fit. -/
def placeSpaced (T n space start : Nat) : List Nat :=
  ((List.range n).map (fun k => start + k * (space + 1))).filter (fun i => decide (i < T))

/-- Modelled from the spec: the kernel `generate_random_nb` (§4.3) — per
column, draw a count from `n_range` and place spaced indices; the exact
count/weight sampling procedure is the spec's open compatibility point (§9),
instantiated here deterministically from the seed. -/
def generate_random_nb (shape : List Nat) (n_range : List Nat)
    (n_prob : Option (List ℚ)) (min_space seed : Nat) : BoolMatrix :=
  let T := shape.getD 0 0
  let N := shape.getD 1 0
  (List.range N).map (fun col =>
    let draw := lcgStep (seed + col)
    let n := if n_range.isEmpty then 0 else n_range.getD (draw % n_range.length) 0
    let chosen := placeSpaced T n min_space (draw % (max T 1))
    (List.range T).map (fun i => chosen.contains i))

/-- Embeds `Signals_Accessor.generate_random` (accessors.py:138-171):
normalize the shape, then run the random generation kernel. -/
def generate_random (shape : PyShape) (n_range : List Nat)
    (n_prob : Option (List ℚ)) (min_space seed : Nat) : BoolMatrix :=
  generate_random_nb (normalize_shape shape) n_range n_prob min_space seed

/-- Modelled from the spec: one column of `generate_iteratively_nb` (§4.3) —
alternate the two choice callables, advancing past the maximum returned index,
ending the column when a call returns nothing; fuel bounds the loop (the
position strictly advances for conforming callables). -/
def iterColAux (f1 f2 : ChoiceFn) (col T : Nat) :
    Nat → Nat → Bool → List Nat × List Nat
  | 0, _, _ => ([], [])
  | fuel + 1, pos, phase1 =>
    if T ≤ pos then ([], [])
    else
      let idxs := (if phase1 then f1 else f2) col pos T
      match idxs.max? with
      | none => ([], [])
      | some mx =>
        let rest := iterColAux f1 f2 col T fuel (mx + 1) (!phase1)
        if phase1 then (idxs ++ rest.1, rest.2) else (rest.1, idxs ++ rest.2)

/-- Modelled from the spec: the kernel `generate_iteratively_nb` (§4.3) —
per column, run the alternating state machine and mark the collected indices
in the entries and exits matrices. -/
def generate_iteratively_nb (shape : List Nat) (f1 f2 : ChoiceFn) :
    BoolMatrix × BoolMatrix :=
  let T := shape.getD 0 0
  let N := shape.getD 1 0
  let cols := (List.range N).map (fun col => iterColAux f1 f2 col T (2 * T + 2) 0 true)
  ((cols.map (fun pr => (List.range T).map (fun i => pr.1.contains i))),
   (cols.map (fun pr => (List.range T).map (fun i => pr.2.contains i))))

/-- Embeds `Signals_Accessor.generate_iteratively` (accessors.py:173-219):
normalize the shape, then run the two-phase generation kernel. -/
def generate_iteratively (shape : PyShape) (f1 f2 : ChoiceFn) :
    BoolMatrix × BoolMatrix :=
  generate_iteratively_nb (normalize_shape shape) f1 f2

/-- Claim C10: the class-level generators treat a bare integer shape `T` and a
one-element tuple `(T,)` exactly as the two-dimensional shape `(T, 1)`:
`generate`, `generate_random` and `generate_iteratively` return the same
result on all three spellings, and that result has a single column. -/
theorem scalar_shape_single_column (T : Nat) (f f1 f2 : ChoiceFn)
    (n_range : List Nat) (n_prob : Option (List ℚ)) (min_space seed : Nat) :
    generate (PyShape.int T) f = generate (PyShape.tuple [T, 1]) f ∧
    generate (PyShape.tuple [T]) f = generate (PyShape.tuple [T, 1]) f ∧
    (generate (PyShape.int T) f).length = 1 ∧
    generate_random (PyShape.int T) n_range n_prob min_space seed
      = generate_random (PyShape.tuple [T, 1]) n_range n_prob min_space seed ∧
    generate_random (PyShape.tuple [T]) n_range n_prob min_space seed
      = generate_random (PyShape.tuple [T, 1]) n_range n_prob min_space seed ∧
    (generate_random (PyShape.int T) n_range n_prob min_space seed).length = 1 ∧
    generate_iteratively (PyShape.int T) f1 f2
      = generate_iteratively (PyShape.tuple [T, 1]) f1 f2 ∧
    generate_iteratively (PyShape.tuple [T]) f1 f2
      = generate_iteratively (PyShape.tuple [T, 1]) f1 f2 ∧
    (generate_iteratively (PyShape.int T) f1 f2).1.length = 1 := by
  have hnorm : normalize_shape (PyShape.tuple [T]) = [T, 1] := by
    simp [normalize_shape]
  refine ⟨rfl, ?_, ?_, rfl, ?_, ?_, rfl, ?_, ?_⟩
  · rw [generate, hnorm]; rfl
  · simp [generate, generate_nb, normalize_shape]
  · rw [generate_random, hnorm]; rfl
  · simp [generate_random, generate_random_nb, normalize_shape]
  · rw [generate_iteratively, hnorm]; rfl
  · simp [generate_iteratively, generate_iteratively_nb, normalize_shape]

/-- One heap cell of the store model: a boolean, integer or float matrix, or a
per-column reduction vector, owned by the caller or by a call. -/
inductive HeapVal
  | bmat (m : BoolMatrix)
  | nmat (m : NatMatrix)
  | fmat (m : RatMatrix)
  | fvec (v : List ℚ)

/-- The store: matrices live at indices; operations read inputs by reference
and allocate outputs by appending. -/
abbrev Store := List HeapVal

/-- Modelled from the spec: store-passing form of
`Signals_Accessor.generate_stop_loss` (accessors.py:267-309).  The broadcast
step (`reshape_fns.broadcast` with `writeable=True`, module not among the
sources; §3 lifecycle and §9 of the spec: owned, newly allocated buffers that
never alias the caller's arrays) allocates fresh working copies of entries and
price, and the kernel writes only the freshly allocated exits buffer; the
returned reference points at the fresh exits matrix. -/
def generate_stop_loss_st (st : Store) (entriesRef tsRef : Nat)
    (stops : List RatMatrix) (trailing relative firstOnly : Bool) :
    Option (Store × Nat) :=
  match st[entriesRef]?, st[tsRef]? with
  | some (HeapVal.bmat e), some (HeapVal.fmat p) =>
    some (st ++ [HeapVal.bmat e, HeapVal.fmat p,
      HeapVal.bmat (generate_stop_loss_nb e p stops trailing relative firstOnly)],
      st.length + 2)
  | _, _ => none

/-- Modelled from the spec: store-passing form of
`Signals_Accessor.generate_take_profit` (accessors.py:311-350), with the same
allocation discipline as the stop-loss side. -/
def generate_take_profit_st (st : Store) (entriesRef tsRef : Nat)
    (stops : List RatMatrix) (relative firstOnly : Bool) :
    Option (Store × Nat) :=
  match st[entriesRef]?, st[tsRef]? with
  | some (HeapVal.bmat e), some (HeapVal.fmat p) =>
    some (st ++ [HeapVal.bmat e, HeapVal.fmat p,
      HeapVal.bmat (generate_take_profit_nb e p stops relative firstOnly)],
      st.length + 2)
  | _, _ => none

/-- Modelled from the spec: store-passing form of `Signals_Accessor.rank` —
the ranking kernel reads the input and fills a freshly allocated rank matrix. -/
def rank_st (st : Store) (ref : Nat) (resetBy : Option BoolMatrix)
    (afterFalse allowGaps : Bool) : Option (Store × Nat) :=
  match st[ref]? with
  | some (HeapVal.bmat m) =>
    some (st ++ [HeapVal.nmat (rank_nb m resetBy afterFalse allowGaps)], st.length)
  | _ => none

/-- Modelled from the spec: store-passing form of
`Signals_Accessor.map_reduce_between` (single-matrix path) — the kernel reads
the input and fills a fresh per-column result vector. -/
def map_reduce_between_st (st : Store) (ref : Nat) (mf : MapFn) (rf : ReduceFn) :
    Option (Store × Nat) :=
  match st[ref]? with
  | some (HeapVal.bmat m) =>
    some (st ++ [HeapVal.fvec (map_reduce_between_nb m mf rf)], st.length)
  | _ => none

/-- Modelled from the spec: store-passing form of `Signals_Accessor.AND` with
one other operand — the combinator reads both operands and allocates the
combined matrix. -/
def AND_st (st : Store) (ref1 ref2 : Nat) : Option (Store × Nat) :=
  match st[ref1]?, st[ref2]? with
  | some (HeapVal.bmat m1), some (HeapVal.bmat m2) =>
    some (st ++ [HeapVal.bmat (AND m1 [m2])], st.length)
  | _, _ => none

/-- Modelled from the spec: store-passing form of `Signals_Accessor.generate`
— generation reads no caller matrix and allocates its output. -/
def generate_st (st : Store) (shape : PyShape) (choice : ChoiceFn) :
    Option (Store × Nat) :=
  some (st ++ [HeapVal.bmat (generate shape choice)], st.length)

/-- Claim C9: every engine operation — ranking, map/reduce, generation,
stop-signal derivation and the combinators — returns a freshly allocated
result and leaves every pre-existing store cell untouched: after the call,
each caller-visible reference below the old store length still reads its
pre-call value (in particular the entries and price arguments of
`generate_stop_loss` and `generate_take_profit` are unchanged), and the
returned reference points at or beyond the old store length. -/
theorem operations_preserve_caller_inputs (st : Store) (r1 r2 r3 : Nat)
    (e e2 : BoolMatrix) (p : RatMatrix) (stops : List RatMatrix)
    (resetBy : Option BoolMatrix) (tr rel fi af ag : Bool)
    (mf : MapFn) (rf : ReduceFn) (shape : PyShape) (choice : ChoiceFn)
    (he : st[r1]? = some (HeapVal.bmat e)) (hp : st[r2]? = some (HeapVal.fmat p))
    (he2 : st[r3]? = some (HeapVal.bmat e2)) (i : Nat) (hi : i < st.length) :
    (∃ st1, generate_stop_loss_st st r1 r2 stops tr rel fi
        = some (st1, st.length + 2) ∧ st1[i]? = st[i]?) ∧
    (∃ st2, generate_take_profit_st st r1 r2 stops rel fi
        = some (st2, st.length + 2) ∧ st2[i]? = st[i]?) ∧
    (∃ st3, rank_st st r1 resetBy af ag = some (st3, st.length) ∧ st3[i]? = st[i]?) ∧
    (∃ st4, map_reduce_between_st st r1 mf rf = some (st4, st.length) ∧ st4[i]? = st[i]?) ∧
    (∃ st5, AND_st st r1 r3 = some (st5, st.length) ∧ st5[i]? = st[i]?) ∧
    (∃ st6, generate_st st shape choice = some (st6, st.length) ∧ st6[i]? = st[i]?) := by
  refine ⟨?_, ?_, ?_, ?_, ?_, ?_⟩
  · refine ⟨st ++ [HeapVal.bmat e, HeapVal.fmat p,
      HeapVal.bmat (generate_stop_loss_nb e p stops tr rel fi)], ?_,
      List.getElem?_append_left hi⟩
    simp [generate_stop_loss_st, he, hp]
  · refine ⟨st ++ [HeapVal.bmat e, HeapVal.fmat p,
      HeapVal.bmat (generate_take_profit_nb e p stops rel fi)], ?_,
      List.getElem?_append_left hi⟩
    simp [generate_take_profit_st, he, hp]
  · refine ⟨st ++ [HeapVal.nmat (rank_nb e resetBy af ag)], ?_,
      List.getElem?_append_left hi⟩
    simp [rank_st, he]
  · refine ⟨st ++ [HeapVal.fvec (map_reduce_between_nb e mf rf)], ?_,
      List.getElem?_append_left hi⟩
    simp [map_reduce_between_st, he]
  · refine ⟨st ++ [HeapVal.bmat (AND e [e2])], ?_,
      List.getElem?_append_left hi⟩
    simp [AND_st, he, he2]
  · refine ⟨st ++ [HeapVal.bmat (generate shape choice)], ?_,
      List.getElem?_append_left hi⟩
    simp [generate_st]

/-- Witness for C9 on a two-cell store holding one signal and one price
matrix. -/
theorem operations_preserve_caller_inputs_witness :
    (([HeapVal.bmat [[true]], HeapVal.fmat [[(1 : ℚ)]]] : Store)[0]?
        = some (HeapVal.bmat [[true]]) ∧
      ([HeapVal.bmat [[true]], HeapVal.fmat [[(1 : ℚ)]]] : Store)[1]?
        = some (HeapVal.fmat [[(1 : ℚ)]]) ∧
      (0 : Nat) < 2) ∧
    ((∃ st1, generate_stop_loss_st [HeapVal.bmat [[true]], HeapVal.fmat [[(1 : ℚ)]]]
          0 1 [] false true true
        = some (st1, 2 + 2) ∧
        st1[0]? = ([HeapVal.bmat [[true]], HeapVal.fmat [[(1 : ℚ)]]] : Store)[0]?) ∧
      (∃ st2, generate_take_profit_st [HeapVal.bmat [[true]], HeapVal.fmat [[(1 : ℚ)]]]
          0 1 [] true true
        = some (st2, 2 + 2) ∧
        st2[0]? = ([HeapVal.bmat [[true]], HeapVal.fmat [[(1 : ℚ)]]] : Store)[0]?) ∧
      (∃ st3, rank_st [HeapVal.bmat [[true]], HeapVal.fmat [[(1 : ℚ)]]] 0 none false false
        = some (st3, 2) ∧
        st3[0]? = ([HeapVal.bmat [[true]], HeapVal.fmat [[(1 : ℚ)]]] : Store)[0]?) ∧
      (∃ st4, map_reduce_between_st [HeapVal.bmat [[true]], HeapVal.fmat [[(1 : ℚ)]]]
          0 (fun _ _ _ => 0) (fun _ _ => 0)
        = some (st4, 2) ∧
        st4[0]? = ([HeapVal.bmat [[true]], HeapVal.fmat [[(1 : ℚ)]]] : Store)[0]?) ∧
      (∃ st5, AND_st [HeapVal.bmat [[true]], HeapVal.fmat [[(1 : ℚ)]]] 0 0
        = some (st5, 2) ∧
        st5[0]? = ([HeapVal.bmat [[true]], HeapVal.fmat [[(1 : ℚ)]]] : Store)[0]?) ∧
      (∃ st6, generate_st [HeapVal.bmat [[true]], HeapVal.fmat [[(1 : ℚ)]]]
          (PyShape.int 1) (fun _ _ _ => [0])
        = some (st6, 2) ∧
        st6[0]? = ([HeapVal.bmat [[true]], HeapVal.fmat [[(1 : ℚ)]]] : Store)[0]?)) :=
  ⟨⟨rfl, rfl, by decide⟩,
    operations_preserve_caller_inputs
      [HeapVal.bmat [[true]], HeapVal.fmat [[(1 : ℚ)]]] 0 1 0
      [[true]] [[true]] [[(1 : ℚ)]] [] none false true true false false
      (fun _ _ _ => 0) (fun _ _ => 0) (PyShape.int 1) (fun _ _ _ => [0])
      rfl rfl rfl 0 (by decide)⟩

end VectorBT
